import Mathlib

/-
Verification of the clinical-trials pipeline core
(enhanced_pipeline.py, cloud_storage.py, app.py).

Shallow embedding: Python functions become Lean functions; external effects
(clock, HTTP transport, blob store, hash function) become explicit parameters;
the pickle-file cache becomes a map from key strings to entries.
-/

/- ### Expiring cache (enhanced_pipeline.py: cache_key / cache_result / get_cached_result) -/

/-- Python `str(sorted(args_dict.items()))`: a canonical rendering of an
association list of string pairs.  The exact rendering is irrelevant to the
theorems; it only matters that it is a function of the sorted item list. -/
def canonical_string (l : List (String × String)) : String :=
  String.intercalate ", " (l.map fun p => "(" ++ p.1 ++ ", " ++ p.2 ++ ")")

/-- Python tuple comparison on `(key, value)` pairs, as used by `sorted`. -/
def pairLe (a b : String × String) : Prop :=
  a.1 < b.1 ∨ (a.1 = b.1 ∧ a.2 ≤ b.2)

instance : DecidableRel pairLe := fun a b => by
  unfold pairLe; exact inferInstance

instance : IsTotal (String × String) pairLe := by
  constructor
  intro a b
  rcases lt_trichotomy a.1 b.1 with hlt | heq | hgt
  · exact Or.inl (Or.inl hlt)
  · rcases le_total a.2 b.2 with hle | hle
    · exact Or.inl (Or.inr ⟨heq, hle⟩)
    · exact Or.inr (Or.inr ⟨heq.symm, hle⟩)
  · exact Or.inr (Or.inl hgt)

instance : IsTrans (String × String) pairLe := by
  constructor
  intro a b c hab hbc
  rcases hab with hab | ⟨hab1, hab2⟩
  · rcases hbc with hbc | ⟨hbc1, hbc2⟩
    · exact Or.inl (lt_trans hab hbc)
    · exact Or.inl (hbc1 ▸ hab)
  · rcases hbc with hbc | ⟨hbc1, hbc2⟩
    · exact Or.inl (hab1 ▸ hbc)
    · exact Or.inr ⟨hab1.trans hbc1, le_trans hab2 hbc2⟩

instance : IsAntisymm (String × String) pairLe := by
  constructor
  intro a b hab hba
  rcases hab with hab | ⟨hab1, hab2⟩
  · rcases hba with hba | ⟨hba1, hba2⟩
    · exact absurd hba (lt_asymm hab)
    · exact absurd (hba1 ▸ hab) (lt_irrefl _)
  · rcases hba with hba | ⟨hba1, hba2⟩
    · exact absurd (hab1 ▸ hba) (lt_irrefl _)
    · exact Prod.ext hab1 (le_antisymm hab2 hba2)

/-- Python `sorted(args_dict.items())`. -/
def sorted_items (l : List (String × String)) : List (String × String) :=
  List.insertionSort pairLe l

/-- Python `cache_key(func_name, args_dict)`: `f"{func_name}_{md5(str(sorted(args_dict.items())))}"`.
The md5 hexdigest is the external hash `h`. -/
def cache_key (h : String → String) (func_name : String)
    (args : List (String × String)) : String :=
  func_name ++ "_" ++ h (canonical_string (sorted_items args))

/-- One pickle file written by `cache_result`: timestamp, expiry_days, payload. -/
structure CacheEntry (α : Type) where
  timestamp : Int
  expiry_days : Int
  result : α
deriving DecidableEq

/-- The cache directory: one entry file per key. -/
def CacheState (α : Type) := String → Option (CacheEntry α)

/-- Python `cache_result(cache_dir, key, result, expiry_days)` at clock value `now`. -/
def cache_result (s : CacheState α) (key : String) (v : α)
    (expiry_days : Int) (now : Int) : CacheState α :=
  fun k => if k = key then some ⟨now, expiry_days, v⟩ else s k

/-- Python `get_cached_result(cache_dir, key)` at clock value `now`.  Returns the
payload when present and unexpired; it never unlinks the cache file, so the
state component of the result is the input state. -/
def get_cached_result (s : CacheState α) (key : String) (now : Int) :
    Option α × CacheState α :=
  match s key with
  | none => (none, s)
  | some e =>
    if now - e.timestamp > e.expiry_days * 86400 then (none, s)
    else (some e.result, s)

/- ### Local heuristic classifier (enhanced_pipeline.py: infer_modality_from_name) -/

/-- Python `str.lower()` (per-character lowercasing). -/
def to_lower (s : String) : String := String.mk (s.toList.map Char.toLower)

def str_contains (s pat : String) : Bool := decide (pat.toList <:+: s.toList)

def str_ends_with (s pat : String) : Bool := decide (pat.toList <:+ s.toList)

def antibody_suffixes : List String := ["mab", "umab", "ximab", "zumab", "imab"]

def modality_patterns : List (String × List String) :=
  [("small molecule", ["small molecule", "synthetic", "chemical", "inhibitor",
    "antagonist", "agonist"]),
   ("peptide", ["peptide", "protein", "polypeptide"]),
   ("enzyme", ["enzyme", "ase"]),
   ("gene therapy", ["gene", "vector", "viral", "aav"]),
   ("cell therapy", ["cell", "stem", "t-cell", "car-t"]),
   ("vaccine", ["vaccine", "vax", "immunization"]),
   ("oligonucleotide", ["rna", "dna", "nucleotide", "antisense", "sirna"])]

/-- Python `infer_modality_from_name(drug_name)`.  The Python falsy test `not drug_name`
is the empty string; the antibody check is `suffix in drug_lower`, which is a
substring containment test. -/
def infer_modality_from_name (drug_name : String) : String :=
  if drug_name = "" then "unknown"
  else
    let drug_lower := to_lower drug_name
    if antibody_suffixes.any (fun sfx => str_contains drug_lower sfx) then
      "monoclonal antibody"
    else
      match modality_patterns.find? (fun p => p.2.any fun pat => str_contains drug_lower pat) with
      | some p => p.1
      | none => "small molecule"

/- ### Paginated fetcher (enhanced_pipeline.py: fetch_clinical_trials) -/

/-- The fields of a raw study record that the client-side filters read:
`protocolSection.sponsorCollaboratorsModule.leadSponsor.class` and
`protocolSection.designModule.studyType`.  `id` distinguishes records. -/
structure Study where
  id : Nat
  sponsorClass : Option String
  studyType : Option String
deriving DecidableEq

/-- The AND-combined post-fetch filter applied to each study of a page. -/
def study_passes_filters (industry_sponsored interventional : Bool) (s : Study) : Bool :=
  (!industry_sponsored || s.sponsorClass == some "INDUSTRY") &&
  (!interventional || s.studyType == some "INTERVENTIONAL")

def filter_studies (industry_sponsored interventional : Bool)
    (studies : List Study) : List Study :=
  studies.filter (study_passes_filters industry_sponsored interventional)

/-- Outcome of one `requests.get` call: a raised transport exception, or a
response with a status code, a studies array, and a next-page token flag. -/
inductive ApiResponse
  | transport_error
  | ok (status : Nat) (studies : List Study) (has_next : Bool)
deriving DecidableEq

/-- Python `all_studies = all_studies[:max_results]`, guarded by
`if max_results and ... len(all_studies) > max_results`. -/
def truncate_to_max (max_results : Option Nat) (l : List Study) : List Study :=
  match max_results with
  | none => l
  | some m => if m ≠ 0 ∧ l.length > m then l.take m else l

/-- Negation of the loop guard conjunct `not max_results or len(all_studies) < max_results`. -/
def cap_reached (max_results : Option Nat) (n : Nat) : Bool :=
  match max_results with
  | none => false
  | some m => m != 0 && decide (n ≥ m)

/-- End of the try block: final truncation, then `if all_studies: cache_result(...)`.
The second component records whether a cache write happened. -/
def finish_fetch (max_results : Option Nat) (acc : List Study) : List Study × Bool :=
  let r := truncate_to_max max_results acc
  (r, !r.isEmpty)

/-- The `while "nextPageToken" in data ...` loop.  A transport exception
anywhere inside the try block is caught by the outer handler, which returns
the empty list (and therefore never caches); a non-200 status on a later page
only breaks out of the loop. -/
def fetch_pages (industry_sponsored interventional : Bool) (max_results : Option Nat) :
    List ApiResponse → Bool → List Study → List Study × Bool
  | [], has_next, acc =>
    if has_next && !cap_reached max_results acc.length then ([], false)
    else finish_fetch max_results acc
  | ApiResponse.transport_error :: _, has_next, acc =>
    if has_next && !cap_reached max_results acc.length then ([], false)
    else finish_fetch max_results acc
  | ApiResponse.ok st studies hn :: rest, has_next, acc =>
    if has_next && !cap_reached max_results acc.length then
      if st ≠ 200 then finish_fetch max_results acc
      else
        fetch_pages industry_sponsored interventional max_results rest hn
          (truncate_to_max max_results
            (acc ++ filter_studies industry_sponsored interventional studies))
    else finish_fetch max_results acc

/-- Python `fetch_clinical_trials`: cache check, first page request and filter, then
the pagination loop.  `cached` is the result of the initial
`get_cached_result` call; `resps` are the successive transport outcomes.
Result: the returned study list, and whether `cache_result` was called. -/
def fetch_clinical_trials (cached : Option (List Study))
    (industry_sponsored interventional : Bool) (max_results : Option Nat)
    (resps : List ApiResponse) : List Study × Bool :=
  match cached with
  | some c => (c, false)
  | none =>
    match resps with
    | [] => ([], false)
    | ApiResponse.transport_error :: _ => ([], false)
    | ApiResponse.ok st studies hn :: rest =>
      if st ≠ 200 then ([], false)
      else
        fetch_pages industry_sponsored interventional max_results rest hn
          (filter_studies industry_sponsored interventional studies)

/- ### Entity enricher (enhanced_pipeline.py: query_openai_for_drug_info /
     process_intervention inside enrich_interventions) -/

/-- The three fields parsed out of the first `{...}` JSON object of the
remote response (with `data.get(..., "unknown")` defaults applied). -/
structure DrugInfo where
  modality : String
  target : String
  confidence : String
deriving DecidableEq

/-- Outcome of the remote call plus JSON extraction: the call raised, the
response held no parseable JSON object, or a parsed object. -/
inductive OpenAIOutcome
  | raised
  | no_json
  | parsed (info : DrugInfo)
deriving DecidableEq

/-- The cache key used by `query_openai_for_drug_info`:
`cache_key("query_openai_for_drug_info", {"drug_name": drug_name.lower()})`. -/
def openai_query_key (h : String → String) (drug_name : String) : String :=
  cache_key h "query_openai_for_drug_info" [("drug_name", to_lower drug_name)]

/-- Python `query_openai_for_drug_info(drug_name, client)`.  Returns the result and
the list of cache writes performed (key, payload).  Only a successfully
parsed response is written back to the cache. -/
def query_openai_for_drug_info (h : String → String) (openai_available : Bool)
    (cache : String → Option DrugInfo) (outcome : OpenAIOutcome)
    (drug_name : String) : Option DrugInfo × List (String × DrugInfo) :=
  if !openai_available then (none, [])
  else
    match cache (openai_query_key h drug_name) with
    | some r => (some r, [])
    | none =>
      match outcome with
      | OpenAIOutcome.raised => (none, [])
      | OpenAIOutcome.no_json => (none, [])
      | OpenAIOutcome.parsed info =>
        (some info, [(openai_query_key h drug_name, info)])

structure EnrichedIntervention where
  name : String
  modality : String
  target : String
  source : String
deriving DecidableEq

/-- Python `process_intervention(intervention)` from `enrich_interventions`.
Returns the enriched record and the cache writes performed on its behalf
(all of which happen inside `query_openai_for_drug_info`). -/
def process_intervention (h : String → String) (use_openai openai_available : Bool)
    (cache : String → Option DrugInfo) (outcome : OpenAIOutcome)
    (intervention : String) : EnrichedIntervention × List (String × DrugInfo) :=
  if use_openai && openai_available then
    let q := query_openai_for_drug_info h openai_available cache outcome intervention
    match q.1 with
    | some r =>
      if r.modality ≠ "unknown" then
        if r.confidence = "low" then
          let pattern_modality := infer_modality_from_name intervention
          if pattern_modality ≠ "unknown" ∧ pattern_modality ≠ r.modality then
            (⟨intervention, pattern_modality, r.target, "Inference (OpenAI low confidence)"⟩, q.2)
          else (⟨intervention, r.modality, r.target, "OpenAI"⟩, q.2)
        else (⟨intervention, r.modality, r.target, "OpenAI"⟩, q.2)
      else (⟨intervention, infer_modality_from_name intervention, "unknown", "Inference"⟩, q.2)
    | none => (⟨intervention, infer_modality_from_name intervention, "unknown", "Inference"⟩, q.2)
  else (⟨intervention, infer_modality_from_name intervention, "unknown", "Inference"⟩, [])

/- ### Artifact store (cloud_storage.py: upload_pipeline_outputs / get_file_url) -/

/-- Observable behaviour of the unrolled `for attempt in range(3)` retry loop
of `upload_pipeline_outputs`: whether the file was uploaded, how many attempts
were made, and the `time.sleep` durations performed between attempts
(`time.sleep(2)` only after a failed attempt with `attempt < 2`). -/
structure AttemptTrace where
  success : Bool
  attempts : Nat
  sleeps : List Nat
deriving DecidableEq

/-- The retry loop for one file; `ok i` tells whether attempt `i` succeeds. -/
def upload_with_retries (ok : Nat → Bool) : AttemptTrace :=
  if ok 0 then ⟨true, 1, []⟩
  else if ok 1 then ⟨true, 2, [2]⟩
  else if ok 2 then ⟨true, 3, [2, 2]⟩
  else ⟨false, 3, [2, 2]⟩

/-- Python `cloud_path = f"{run_id}/{dir_name}/{file_name}"`. -/
def cloud_path (run_id dir_name file_name : String) : String :=
  run_id ++ "/" ++ dir_name ++ "/" ++ file_name

/-- Python `file_key = f"{dir_name}/{file_name}"`. -/
def file_key (dir_name file_name : String) : String :=
  dir_name ++ "/" ++ file_name

/-- The URL `https://storage.googleapis.com/{bucket.name}/{blob.name}`. -/
def public_url (bucket path : String) : String :=
  "https://storage.googleapis.com/" ++ bucket ++ "/" ++ path

/-- Python `upload_pipeline_outputs(run_id)`.  `dirs` is the local output listing
(existing directory name, its files); `ok p i` is whether upload attempt `i`
for cloud path `p` succeeds; `policy_ok` is whether the bucket IAM-policy
mutation succeeds (public URL) as opposed to falling back to a signed URL.
Returns the `file_key -> url` mapping; files whose retries are exhausted are
simply skipped. -/
def upload_pipeline_outputs (run_id bucket : String)
    (dirs : List (String × List String)) (ok : String → Nat → Bool)
    (policy_ok : String → Bool) (signed_url : String → String) :
    List (String × String) :=
  dirs.flatMap fun d =>
    d.2.filterMap fun fname =>
      if (upload_with_retries (ok (cloud_path run_id d.1 fname))).success then
        some (file_key d.1 fname,
          if policy_ok (cloud_path run_id d.1 fname) then
            public_url bucket (cloud_path run_id d.1 fname)
          else signed_url (cloud_path run_id d.1 fname))
      else none

/-- Python `local_path.lstrip('/')`. -/
def lstrip_slashes (s : String) : String :=
  String.mk (s.toList.dropWhile fun c => c == '/')

/-- Python `os.path.basename(local_path)`: the part after the last `/`. -/
def path_basename (s : String) : String :=
  String.mk ((s.toList.reverse.takeWhile fun c => c != '/').reverse)

/-- The `path_formats` candidate list of `get_file_url`, in source order. -/
def candidate_paths (run_id local_path : String) : List String :=
  [run_id ++ "/" ++ local_path,
   run_id ++ "/" ++ lstrip_slashes local_path,
   local_path,
   run_id ++ "/" ++ path_basename local_path]

/-- The `for cloud_path in path_formats` loop of `get_file_url`: on an
existing blob, try a signed URL, then making the blob public; if both raise,
fall through to the next candidate. -/
def try_candidates (ex : String → Bool) (signed make_public : String → Option String) :
    List String → Option String
  | [] => none
  | p :: rest =>
    if ex p then
      match signed p with
      | some u => some u
      | none =>
        match make_public p with
        | some u => some u
        | none => try_candidates ex signed make_public rest
    else try_candidates ex signed make_public rest

/-- Python `get_file_url(run_id, local_path)`. -/
def get_file_url (ex : String → Bool) (signed make_public : String → Option String)
    (run_id local_path : String) : Option String :=
  try_candidates ex signed make_public (candidate_paths run_id local_path)

/- ### Run coordinator (app.py: run_analysis / run_pipeline_process;
     enhanced_pipeline.py: main) -/

inductive RunStatus
  | running
  | completed
  | error
deriving DecidableEq

/-- Outcome of `subprocess.run(cmd, ...)`: the call raised, or the pipeline
process exited with a return code and stderr text. -/
inductive SubprocOutcome
  | raised (msg : String)
  | exited (returncode : Int) (stderr : String)
deriving DecidableEq

/-- Outcome of `upload_pipeline_outputs(run_id)` as seen by the coordinator. -/
inductive UploadOutcome
  | ok (file_urls : List (String × String))
  | raised (msg : String)
deriving DecidableEq

/-- The fields of the `runs[run_id]` registry entry that the claims read. -/
structure RunRecord where
  status : RunStatus
  error : Option String
  storage_error : Option String
  files : List (String × String)
deriving DecidableEq

/-- The record created by `run_analysis` before the background thread starts. -/
def initial_run_record : RunRecord :=
  ⟨RunStatus.running, none, none, []⟩

/-- Did the subprocess stage fail (raise, or exit nonzero)? -/
def subproc_failed : SubprocOutcome → Prop
  | SubprocOutcome.raised _ => True
  | SubprocOutcome.exited rc _ => rc ≠ 0

instance : DecidablePred subproc_failed := fun s => by
  unfold subproc_failed; cases s <;> exact inferInstance

/-- Python `run_pipeline_process` from `app.py`: runs the subprocess, checks output
files, uploads, and writes a terminal status.  Returns the updated record and
the trace of writes to `runs[run_id]['status']`. -/
def run_pipeline_process (r : RunRecord) (sub : SubprocOutcome)
    (files_exist : Bool) (upload : UploadOutcome) : RunRecord × List RunStatus :=
  match sub with
  | SubprocOutcome.raised msg =>
    ({ r with status := RunStatus.error, error := some msg }, [RunStatus.error])
  | SubprocOutcome.exited rc stderr =>
    if rc ≠ 0 then
      ({ r with status := RunStatus.error, error := some stderr }, [RunStatus.error])
    else if !files_exist then
      ({ r with
          status := RunStatus.error
          error := some "Pipeline ran successfully but did not generate output files" },
       [RunStatus.error])
    else
      match upload with
      | UploadOutcome.ok urls =>
        ({ r with status := RunStatus.completed, files := urls }, [RunStatus.completed])
      | UploadOutcome.raised m =>
        ({ r with status := RunStatus.completed, storage_error := some m },
         [RunStatus.completed])

/-- Python `main` of `enhanced_pipeline.py`, abstracted to the exit behaviour the
coordinator observes in a fresh workspace: an empty fetch result prints and
returns (exit code 0) before any output file is written; otherwise the stages
run and the CSV/summary/report outputs are written. -/
def pipeline_main_exit (raw_trials : List Study) : Int × Bool :=
  if raw_trials.isEmpty then (0, false) else (0, true)

/- ### Helper lemmas -/

theorem sorted_items_eq_of_perm {a b : List (String × String)} (hab : a.Perm b) :
    sorted_items a = sorted_items b := by
  exact List.eq_of_perm_of_sorted
    (((List.perm_insertionSort pairLe a).trans hab).trans
      (List.perm_insertionSort pairLe b).symm)
    (List.sorted_insertionSort pairLe a)
    (List.sorted_insertionSort pairLe b)

theorem modality_patterns_fst_ne_unknown :
    ∀ p ∈ modality_patterns, p.1 ≠ "unknown" := by decide

theorem modality_patterns_fst_ne_antibody :
    ∀ p ∈ modality_patterns, p.1 ≠ "monoclonal antibody" := by decide

/- ### Claim theorems -/

/-- C2: after `cache_result` stores `v` under `k` with positive `ttl_days = d`
at time `now`, a `get_cached_result` at time `now'` returns `v` while
`now' - now ≤ d * 86400` and returns absent once `now' - now > d * 86400`;
the expired entry is treated as absent without being deleted: the state after
the read is unchanged and still holds the entry. -/
theorem cache_put_get_ttl (α : Type) (s : CacheState α) (k : String) (v : α)
    (d now now' : Int) (hd : 0 < d) :
    (get_cached_result (cache_result s k v d now) k now').1
      = (if now' - now > d * 86400 then none else some v)
    ∧ (get_cached_result (cache_result s k v d now) k now').2
      = cache_result s k v d now
    ∧ cache_result s k v d now k = some ⟨now, d, v⟩ := by
  have hk : cache_result s k v d now k = some ⟨now, d, v⟩ := by
    unfold cache_result; simp
  have hsplit : get_cached_result (cache_result s k v d now) k now' =
      if now' - now > d * 86400 then (none, cache_result s k v d now)
      else (some v, cache_result s k v d now) := by
    unfold get_cached_result
    rw [hk]
  refine ⟨?_, ?_, hk⟩ <;> rw [hsplit] <;> split <;> rfl

theorem cache_put_get_ttl_witness :
    (0 : Int) < 1
    ∧ (get_cached_result
        (cache_result (fun _ => (none : Option (CacheEntry Nat))) "k" 5 1 0) "k" 86400).1
        = some 5
    ∧ (get_cached_result
        (cache_result (fun _ => (none : Option (CacheEntry Nat))) "k" 5 1 0) "k" 86401).1
        = none := by
  refine ⟨by decide, ?_, ?_⟩
  · have h := cache_put_get_ttl Nat (fun _ => none) "k" 5 1 0 86400 (by decide)
    rw [h.1]; decide
  · have h := cache_put_get_ttl Nat (fun _ => none) "k" 5 1 0 86401 (by decide)
    rw [h.1]; decide

/-- C9: the cache key is invariant under reordering of the argument pairs:
for any hash function, operation name, and two argument lists that are
permutations of each other, `cache_key` produces the same key. -/
theorem cache_key_reorder_invariant (h : String → String) (func_name : String)
    (a b : List (String × String)) (hab : a.Perm b) :
    cache_key h func_name a = cache_key h func_name b := by
  unfold cache_key
  rw [sorted_items_eq_of_perm hab]

theorem cache_key_reorder_invariant_witness :
    cache_key (fun s => s) "f" [("a", "1"), ("b", "2")]
      = cache_key (fun s => s) "f" [("b", "2"), ("a", "1")] :=
  cache_key_reorder_invariant (fun s => s) "f" _ _ (by decide)

/-- C10: the heuristic classifier answers `"unknown"` exactly on the empty
(falsy) name; every non-empty name gets a concrete category, with
`"small molecule"` as the default when neither the antibody check nor any
keyword-table pattern matches. -/
theorem infer_modality_unknown_iff_empty :
    (∀ name : String, (infer_modality_from_name name = "unknown" ↔ name = ""))
    ∧ (∀ name : String, name ≠ "" →
        (antibody_suffixes.any fun sfx => str_contains (to_lower name) sfx) = false →
        (modality_patterns.all fun p => p.2.all fun pat => !str_contains (to_lower name) pat) = true →
        infer_modality_from_name name = "small molecule") := by
  constructor
  · intro name
    constructor
    · intro hres
      by_contra hne
      simp only [infer_modality_from_name, if_neg hne] at hres
      split at hres
      · exact absurd hres (by decide)
      · split at hres
        · next p heq =>
          exact modality_patterns_fst_ne_unknown p (List.mem_of_find?_eq_some heq) hres
        · exact absurd hres (by decide)
    · intro hname
      simp [infer_modality_from_name, hname]
  · intro name hne hab hall
    have hfind :
        (modality_patterns.find? fun p => p.2.any fun pat => str_contains (to_lower name) pat)
          = none := by
      rw [List.find?_eq_none]
      intro p hp
      simp only [List.all_eq_true] at hall
      have h2 := hall p hp
      simp only [List.all_eq_true] at h2
      simp only [List.any_eq_true, not_exists]
      intro pat
      rintro ⟨hpat, hc⟩
      have h3 := h2 pat hpat
      rw [hc] at h3
      exact absurd h3 (by decide)
    simp only [infer_modality_from_name, if_neg hne, hab, hfind]
    rfl

theorem infer_modality_unknown_iff_empty_witness :
    infer_modality_from_name "Qx" = "small molecule"
    ∧ infer_modality_from_name "" = "unknown" :=
  ⟨infer_modality_unknown_iff_empty.2 "Qx" (by decide) (by decide) (by decide),
   (infer_modality_unknown_iff_empty.1 "").mpr rfl⟩

/-- C6 counterexample: `"Mabthera"` triggers the antibody rule (it is
classified as `"monoclonal antibody"`) although its lowercased form ends with
none of the fixed antibody suffixes — the code's check is substring
containment, not an ends-with test. -/
theorem antibody_rule_not_suffix_cex :
    infer_modality_from_name "Mabthera" = "monoclonal antibody"
    ∧ (antibody_suffixes.any fun sfx => str_ends_with (to_lower "Mabthera") sfx) = false := by
  decide

/-- C6 (amended): the antibody-category rule is the classifier's first check
and triggers exactly when the lowercased name contains one of the fixed
antibody substrings; it takes precedence over the keyword table (no table
entry can produce the antibody label), and `"SomeGenericMab"` is classified
as the antibody category. -/
theorem antibody_rule_contains_iff :
    (∀ name : String,
      (infer_modality_from_name name = "monoclonal antibody" ↔
        name ≠ "" ∧ (antibody_suffixes.any fun sfx => str_contains (to_lower name) sfx) = true))
    ∧ infer_modality_from_name "SomeGenericMab" = "monoclonal antibody" := by
  constructor
  · intro name
    constructor
    · intro hres
      by_cases hne : name = ""
      · rw [infer_modality_from_name, if_pos hne] at hres
        exact absurd hres (by decide)
      · refine ⟨hne, ?_⟩
        by_contra hab
        simp only [infer_modality_from_name, if_neg hne] at hres
        rw [Bool.not_eq_true] at hab
        rw [hab] at hres
        simp only [Bool.false_eq_true, if_false] at hres
        split at hres
        · next p heq =>
          exact modality_patterns_fst_ne_antibody p (List.mem_of_find?_eq_some heq) hres
        · exact absurd hres (by decide)
    · rintro ⟨hne, hab⟩
      simp only [infer_modality_from_name, if_neg hne, hab]
      rfl
  · decide

/-- C5 counterexample: with remote inference disabled, `process_intervention`
classifies `"Evolocumab"` by the local heuristic and performs no cache write
at all — the final EnrichedEntity is not written to the cache. -/
theorem heuristic_result_not_cached_cex :
    (process_intervention (fun s => s) false false (fun _ => none)
        OpenAIOutcome.no_json "Evolocumab").2 = []
    ∧ (process_intervention (fun s => s) false false (fun _ => none)
        OpenAIOutcome.no_json "Evolocumab").1
      = ⟨"Evolocumab", "monoclonal antibody", "unknown", "Inference"⟩ := by
  constructor
  · rfl
  · show (⟨"Evolocumab", infer_modality_from_name "Evolocumab", "unknown", "Inference"⟩
        : EnrichedIntervention) = _
    have : infer_modality_from_name "Evolocumab" = "monoclonal antibody" := by decide
    rw [this]

/-- The cache writes of the remote query, as a function of the cache lookup
and the remote outcome. -/
theorem query_writes_eq (h : String → String) (cache : String → Option DrugInfo)
    (outcome : OpenAIOutcome) (name : String) :
    (query_openai_for_drug_info h true cache outcome name).2 =
      (match cache (openai_query_key h name), outcome with
       | none, OpenAIOutcome.parsed info => [(openai_query_key h name, info)]
       | _, _ => []) := by
  unfold query_openai_for_drug_info
  rcases cache (openai_query_key h name) with _ | r
  · cases outcome <;> rfl
  · rfl

/-- C5 (amended): the only cache write performed on behalf of an entity is
the one `query_openai_for_drug_info` makes for a successfully parsed remote
response, stored under the key derived from the operation name and the
lowercased entity name, and the payload written is the parsed remote result;
heuristic-only classifications (remote disabled, remote unavailable, raised
call, or unparseable response) are never written back. -/
theorem cache_write_only_on_remote_parse (h : String → String)
    (use_openai openai_available : Bool) (cache : String → Option DrugInfo)
    (outcome : OpenAIOutcome) (name : String) :
    ((process_intervention h use_openai openai_available cache outcome name).2 ≠ [] →
      ∃ info, outcome = OpenAIOutcome.parsed info ∧
        (process_intervention h use_openai openai_available cache outcome name).2
          = [(openai_query_key h name, info)])
    ∧ (use_openai = false →
        (process_intervention h use_openai openai_available cache outcome name).2 = [])
    ∧ (∀ info, outcome = OpenAIOutcome.parsed info → use_openai = true →
        openai_available = true → cache (openai_query_key h name) = none →
        (process_intervention h use_openai openai_available cache outcome name).2
          = [(openai_query_key h name, info)]) := by
  have hw : (process_intervention h use_openai openai_available cache outcome name).2 =
      if use_openai && openai_available then
        (query_openai_for_drug_info h openai_available cache outcome name).2
      else [] := by
    unfold process_intervention
    split
    · rcases hq : (query_openai_for_drug_info h openai_available cache outcome name).1 with _ | r
      · simp [hq]
      · simp only [hq]
        split
        · split
          · split <;> rfl
          · rfl
        · rfl
    · rfl
  refine ⟨?_, ?_, ?_⟩
  · intro hne
    rw [hw] at hne ⊢
    by_cases hcond : (use_openai && openai_available) = true
    · rw [if_pos hcond] at hne ⊢
      have hoa : openai_available = true := (Bool.and_eq_true _ _ |>.mp hcond).2
      rw [hoa] at hne ⊢
      rw [query_writes_eq] at hne ⊢
      rcases hc : cache (openai_query_key h name) with _ | r
      · rw [hc] at hne
        cases outcome
        · exact absurd rfl hne
        · exact absurd rfl hne
        · next info => exact ⟨info, rfl, rfl⟩
      · rw [hc] at hne
        exact absurd rfl hne
    · rw [if_neg hcond] at hne
      exact absurd rfl hne
  · intro huo
    rw [hw, huo]
    rfl
  · intro info hout huo hoa hc
    rw [hw, huo, hoa, hout]
    have hq3 : (query_openai_for_drug_info h true cache (OpenAIOutcome.parsed info) name).2
        = [(openai_query_key h name, info)] := by
      rw [query_writes_eq, hc]
    rw [hq3]
    rfl

theorem cache_write_only_on_remote_parse_witness :
    (process_intervention (fun s => s) true true (fun _ => none)
        (OpenAIOutcome.parsed ⟨"peptide", "PCSK9", "high"⟩) "drugA").2
      = [(openai_query_key (fun s => s) "drugA", ⟨"peptide", "PCSK9", "high"⟩)] :=
  (cache_write_only_on_remote_parse (fun s => s) true true (fun _ => none)
      (OpenAIOutcome.parsed ⟨"peptide", "PCSK9", "high"⟩) "drugA").2.2
    ⟨"peptide", "PCSK9", "high"⟩ rfl rfl rfl rfl

/- ### Fetcher lemmas -/

theorem truncate_length_le {m : Nat} (hm : 0 < m) (l : List Study) :
    (truncate_to_max (some m) l).length ≤ m := by
  simp only [truncate_to_max]
  split
  · rw [List.length_take]
    exact Nat.min_le_left m l.length
  · next hcond =>
    have hne : m ≠ 0 := Nat.pos_iff_ne_zero.mp hm
    exact Nat.le_of_not_lt fun hgt => hcond ⟨hne, hgt⟩

theorem finish_fetch_length {m : Nat} (hm : 0 < m) (acc : List Study) :
    ((finish_fetch (some m) acc).1).length ≤ m := by
  simp only [finish_fetch]
  exact truncate_length_le hm acc

theorem finish_fetch_write_ne_nil (mr : Option Nat) (acc : List Study) :
    (finish_fetch mr acc).2 = true → (finish_fetch mr acc).1 ≠ [] := by
  simp only [finish_fetch]
  intro h2 hnil
  rw [hnil] at h2
  simp at h2

theorem fetch_pages_length (ind intv : Bool) {m : Nat} (hm : 0 < m) :
    ∀ (resps : List ApiResponse) (hn : Bool) (acc : List Study),
      ((fetch_pages ind intv (some m) resps hn acc).1).length ≤ m := by
  intro resps
  induction resps with
  | nil =>
    intro hn acc
    simp only [fetch_pages]
    split
    · simp
    · exact finish_fetch_length hm acc
  | cons head rest ih =>
    intro hn acc
    cases head with
    | transport_error =>
      simp only [fetch_pages]
      split
      · simp
      · exact finish_fetch_length hm acc
    | ok st studies page_next =>
      simp only [fetch_pages]
      split
      · split
        · exact finish_fetch_length hm acc
        · exact ih page_next _
      · exact finish_fetch_length hm acc

theorem fetch_pages_write_ne_nil (ind intv : Bool) (mr : Option Nat) :
    ∀ (resps : List ApiResponse) (hn : Bool) (acc : List Study),
      (fetch_pages ind intv mr resps hn acc).2 = true →
      (fetch_pages ind intv mr resps hn acc).1 ≠ [] := by
  intro resps
  induction resps with
  | nil =>
    intro hn acc
    simp only [fetch_pages]
    split
    · intro h2; exact absurd h2 (by decide)
    · exact finish_fetch_write_ne_nil mr acc
  | cons head rest ih =>
    intro hn acc
    cases head with
    | transport_error =>
      simp only [fetch_pages]
      split
      · intro h2; exact absurd h2 (by decide)
      · exact finish_fetch_write_ne_nil mr acc
    | ok st studies page_next =>
      simp only [fetch_pages]
      split
      · split
        · exact finish_fetch_write_ne_nil mr acc
        · exact ih page_next _
      · exact finish_fetch_write_ne_nil mr acc

/-- A study that passes both post-fetch filters, with a distinguishing id. -/
def sample_study (n : Nat) : Study := ⟨n, some "INDUSTRY", some "INTERVENTIONAL"⟩

/-- An upstream source with 12 matching records spread across 3 pages,
chained by continuation tokens. -/
def sample_pages : List ApiResponse :=
  [ApiResponse.ok 200 [sample_study 0, sample_study 1, sample_study 2, sample_study 3] true,
   ApiResponse.ok 200 [sample_study 4, sample_study 5, sample_study 6, sample_study 7] true,
   ApiResponse.ok 200 [sample_study 8, sample_study 9, sample_study 10, sample_study 11] false]

/-- C3: with a positive result cap `m` (and any cache entry for the call key
itself bounded by `m`), the fetch returns at most `m` records; and for the
12-matching-records-across-3-pages source with cap 5, it returns exactly the
first 5 records in first-seen (page and within-page) order. -/
theorem fetch_respects_cap :
    (∀ (cached : Option (List Study)) (ind intv : Bool) (m : Nat)
        (resps : List ApiResponse), 0 < m →
      (∀ c, cached = some c → c.length ≤ m) →
      ((fetch_clinical_trials cached ind intv (some m) resps).1).length ≤ m)
    ∧ (fetch_clinical_trials none true true (some 5) sample_pages).1
        = [sample_study 0, sample_study 1, sample_study 2, sample_study 3, sample_study 4] := by
  constructor
  · intro cached ind intv m resps hm hcached
    cases cached with
    | some c => exact hcached c rfl
    | none =>
      cases resps with
      | nil => simp [fetch_clinical_trials]
      | cons head rest =>
        cases head with
        | transport_error => simp [fetch_clinical_trials]
        | ok st studies page_next =>
          simp only [fetch_clinical_trials]
          split
          · simp
          · exact fetch_pages_length ind intv hm rest page_next _
  · decide

theorem fetch_respects_cap_witness :
    ((fetch_clinical_trials none true true (some 5) sample_pages).1).length ≤ 5 :=
  fetch_respects_cap.1 none true true 5 sample_pages (by decide)
    (fun c hc => by cases hc)

/-- C8: a transport-level exception — on the first request or on any
pagination request the loop actually performs — aborts the fetch and yields
the empty list with no cache write; and a cache write happens only when the
final returned list is non-empty (an empty final result is never cached). -/
theorem fetch_abort_and_cache_discipline :
    (∀ (ind intv : Bool) (mr : Option Nat) (rest : List ApiResponse),
      fetch_clinical_trials none ind intv mr (ApiResponse.transport_error :: rest)
        = ([], false))
    ∧ (∀ (ind intv : Bool) (mr : Option Nat) (rest : List ApiResponse)
        (hn : Bool) (acc : List Study),
        (hn && !cap_reached mr acc.length) = true →
        fetch_pages ind intv mr (ApiResponse.transport_error :: rest) hn acc = ([], false))
    ∧ (∀ (cached : Option (List Study)) (ind intv : Bool) (mr : Option Nat)
        (resps : List ApiResponse),
        (fetch_clinical_trials cached ind intv mr resps).2 = true →
        (fetch_clinical_trials cached ind intv mr resps).1 ≠ []) := by
  refine ⟨fun ind intv mr rest => rfl, ?_, ?_⟩
  · intro ind intv mr rest hn acc hcond
    simp only [fetch_pages]
    rw [if_pos hcond]
  · intro cached ind intv mr resps
    cases cached with
    | some c =>
      intro h2
      simp [fetch_clinical_trials] at h2
    | none =>
      cases resps with
      | nil =>
        intro h2
        simp [fetch_clinical_trials] at h2
      | cons head rest =>
        cases head with
        | transport_error =>
          intro h2
          simp [fetch_clinical_trials] at h2
        | ok st studies page_next =>
          simp only [fetch_clinical_trials]
          split
          · intro h2; exact absurd h2 (by decide)
          · exact fetch_pages_write_ne_nil ind intv mr rest page_next _

theorem fetch_abort_and_cache_discipline_witness :
    fetch_clinical_trials none true true (some 5) [ApiResponse.transport_error]
      = ([], false)
    ∧ fetch_pages true true (some 5) [ApiResponse.transport_error] true []
      = ([], false)
    ∧ (fetch_clinical_trials none true true (some 5) sample_pages).1 ≠ [] :=
  ⟨fetch_abort_and_cache_discipline.1 true true (some 5) [],
   fetch_abort_and_cache_discipline.2.1 true true (some 5) [] true [] (by decide),
   fetch_abort_and_cache_discipline.2.2 none true true (some 5) sample_pages (by decide)⟩

/-- C4: each file is attempted at most 3 times with a fixed 2-second delay
between consecutive attempts (one fewer sleep than attempts); a file whose
attempts all fail contributes no key to the returned mapping, membership in
the mapping depends only on that file's own upload outcomes, and in the
concrete scenario a sibling file is still uploaded and included while the
failing file's key is absent. -/
theorem upload_retry_and_omission :
    (∀ ok : Nat → Bool,
      (upload_with_retries ok).attempts ≤ 3
      ∧ (∀ t ∈ (upload_with_retries ok).sleeps, t = 2)
      ∧ (upload_with_retries ok).sleeps.length = (upload_with_retries ok).attempts - 1
      ∧ ((upload_with_retries ok).success = false →
          ok 0 = false ∧ ok 1 = false ∧ ok 2 = false))
    ∧ (∀ (run_id bucket : String) (dirs : List (String × List String))
        (ok : String → Nat → Bool) (policy_ok : String → Bool)
        (signed_url : String → String) (key url : String),
        ((key, url) ∈ upload_pipeline_outputs run_id bucket dirs ok policy_ok signed_url ↔
          ∃ dn fs fn, (dn, fs) ∈ dirs ∧ fn ∈ fs ∧ key = file_key dn fn ∧
            (upload_with_retries (ok (cloud_path run_id dn fn))).success = true ∧
            url = (if policy_ok (cloud_path run_id dn fn) then
                     public_url bucket (cloud_path run_id dn fn)
                   else signed_url (cloud_path run_id dn fn))))
    ∧ upload_pipeline_outputs "run1" "bkt" [("results", ["a.json", "b.json"])]
        (fun p _ => p != "run1/results/a.json") (fun _ => true) (fun _ => "")
        = [("results/b.json", public_url "bkt" (cloud_path "run1" "results" "b.json"))] := by
  refine ⟨?_, ?_, ?_⟩
  · intro ok
    rcases h0 : ok 0 <;> rcases h1 : ok 1 <;> rcases h2 : ok 2 <;>
      simp [upload_with_retries, h0, h1, h2]
  · intro run_id bucket dirs ok policy_ok signed_url key url
    simp only [upload_pipeline_outputs, List.mem_flatMap, List.mem_filterMap,
      Option.ite_none_right_eq_some, Option.some.injEq, Prod.mk.injEq]
    constructor
    · rintro ⟨⟨dn, fs⟩, hd, fn, hfn, hsucc, hkey, hurl⟩
      exact ⟨dn, fs, fn, hd, hfn, hkey.symm, hsucc, hurl.symm⟩
    · rintro ⟨dn, fs, fn, hd, hfn, hkey, hsucc, hurl⟩
      exact ⟨⟨dn, fs⟩, hd, fn, hfn, hsucc, hkey.symm, hurl.symm⟩
  · decide

theorem upload_retry_and_omission_witness :
    (upload_with_retries (fun _ => false)).attempts ≤ 3
    ∧ ((fun _ => false) 0 = false ∧ (fun _ => false) 1 = false
        ∧ (fun _ => false) 2 = false) :=
  ⟨(upload_retry_and_omission.1 (fun _ => false)).1,
   (upload_retry_and_omission.1 (fun _ => false)).2.2.2 rfl⟩

/- ### URL-resolution lemmas -/

theorem try_candidates_first_hit (ex : String → Bool)
    (signed make_public : String → Option String)
    (hsig : ∀ p, ex p = true → (signed p).isSome = true) :
    ∀ l : List String,
      try_candidates ex signed make_public l = (l.find? ex).bind signed := by
  intro l
  induction l with
  | nil => rfl
  | cons p rest ih =>
    cases hex : ex p with
    | false =>
      simp only [try_candidates, hex, Bool.false_eq_true, if_false]
      rw [List.find?_cons_of_neg _ (by simp [hex]), ih]
    | true =>
      obtain ⟨u, hu⟩ := Option.isSome_iff_exists.mp (hsig p hex)
      simp only [try_candidates, hex, if_true]
      rw [hu, List.find?_cons_of_pos _ (by simp [hex])]
      show some u = (signed p)
      rw [hu]

theorem try_candidates_none (ex : String → Bool)
    (signed make_public : String → Option String) :
    ∀ l : List String, (∀ p ∈ l, ex p = false) →
      try_candidates ex signed make_public l = none := by
  intro l
  induction l with
  | nil => intro _; rfl
  | cons p rest ih =>
    intro hall
    have hp : ex p = false := hall p (List.mem_cons_self p rest)
    simp only [try_candidates, hp, Bool.false_eq_true, if_false]
    exact ih fun q hq => hall q (List.mem_cons_of_mem p hq)

/-- C7: `get_file_url` tries, in order, the run-prefixed path, the
run-prefixed path with leading slashes stripped, the bare path, and the
run-prefixed basename, and returns the URL of the first candidate that
exists remotely (whenever URL generation succeeds on existing blobs); a blob
existing only under the bare non-prefixed candidate is still found, and if no
candidate exists the result is absent. -/
theorem resolve_url_fallback_chain :
    (∀ (ex : String → Bool) (signed make_public : String → Option String)
        (run_id local_path : String),
      (∀ p, ex p = true → (signed p).isSome = true) →
      get_file_url ex signed make_public run_id local_path
        = ((candidate_paths run_id local_path).find? ex).bind signed)
    ∧ (∀ (ex : String → Bool) (signed make_public : String → Option String)
        (run_id local_path : String),
        (∀ p ∈ candidate_paths run_id local_path, ex p = false) →
        get_file_url ex signed make_public run_id local_path = none)
    ∧ (∀ (ex : String → Bool) (signed make_public : String → Option String)
        (run_id local_path u : String),
        ex (run_id ++ "/" ++ local_path) = false →
        ex (run_id ++ "/" ++ lstrip_slashes local_path) = false →
        ex local_path = true → signed local_path = some u →
        get_file_url ex signed make_public run_id local_path = some u) := by
  refine ⟨?_, ?_, ?_⟩
  · intro ex signed make_public run_id local_path hsig
    exact try_candidates_first_hit ex signed make_public hsig _
  · intro ex signed make_public run_id local_path hall
    exact try_candidates_none ex signed make_public _ hall
  · intro ex signed make_public run_id local_path u h1 h2 h3 h4
    unfold get_file_url candidate_paths
    simp only [try_candidates, h1, h2, h3, h4, Bool.false_eq_true, if_false, if_true]

theorem resolve_url_fallback_chain_witness :
    get_file_url (fun p => p == "results/report.md")
      (fun p => some ("https://signed/" ++ p)) (fun _ => none)
      "run1" "results/report.md" = some "https://signed/results/report.md" :=
  resolve_url_fallback_chain.2.2 (fun p => p == "results/report.md")
    (fun p => some ("https://signed/" ++ p)) (fun _ => none)
    "run1" "results/report.md" "https://signed/results/report.md"
    (by decide) (by decide) (by decide) rfl

/-- C1: the run record starts as `running` and `run_pipeline_process` writes
exactly one terminal status; the final status is `error` exactly when the
subprocess raised or exited nonzero or no output files exist, and `completed`
otherwise — in particular an upload failure still yields `completed` with the
storage failure recorded in the `storage_error` annotation; and when the
fetch stage yields nothing the pipeline subprocess exits 0 without writing
output files, so the run ends in `error`. -/
theorem run_status_lifecycle :
    initial_run_record.status = RunStatus.running
    ∧ (∀ (r : RunRecord) (sub : SubprocOutcome) (files_exist : Bool)
        (upload : UploadOutcome),
        (run_pipeline_process r sub files_exist upload).2
          = [(run_pipeline_process r sub files_exist upload).1.status]
        ∧ (run_pipeline_process r sub files_exist upload).1.status ≠ RunStatus.running)
    ∧ (∀ (r : RunRecord) (sub : SubprocOutcome) (files_exist : Bool)
        (upload : UploadOutcome),
        ((run_pipeline_process r sub files_exist upload).1.status = RunStatus.error ↔
          (subproc_failed sub ∨ files_exist = false)))
    ∧ (∀ (r : RunRecord) (stderr msg : String),
        (run_pipeline_process r (SubprocOutcome.exited 0 stderr) true
            (UploadOutcome.raised msg)).1.status = RunStatus.completed
        ∧ (run_pipeline_process r (SubprocOutcome.exited 0 stderr) true
            (UploadOutcome.raised msg)).1.storage_error = some msg)
    ∧ (∀ (raw_trials : List Study) (upload : UploadOutcome) (stderr : String),
        raw_trials = [] →
        (run_pipeline_process initial_run_record
          (SubprocOutcome.exited (pipeline_main_exit raw_trials).1 stderr)
          (pipeline_main_exit raw_trials).2 upload).1.status = RunStatus.error) := by
  refine ⟨rfl, ?_, ?_, ?_, ?_⟩
  · intro r sub fe up
    cases sub with
    | raised msg => exact ⟨rfl, fun hcon => RunStatus.noConfusion hcon⟩
    | exited rc stderr =>
      simp only [run_pipeline_process]
      split
      · exact ⟨rfl, fun hcon => RunStatus.noConfusion hcon⟩
      · split
        · exact ⟨rfl, fun hcon => RunStatus.noConfusion hcon⟩
        · cases up <;> exact ⟨rfl, fun hcon => RunStatus.noConfusion hcon⟩
  · intro r sub fe up
    cases sub with
    | raised msg =>
      simp [run_pipeline_process, subproc_failed]
    | exited rc stderr =>
      simp only [run_pipeline_process, subproc_failed]
      split
      · next hrc => simp [hrc]
      · next hrc =>
        split
        · next hfe =>
          simp only [Bool.not_eq_eq_eq_not, Bool.not_true] at hfe
          simp [hrc, hfe]
        · next hfe =>
          have hfe' : fe = true := by
            cases fe
            · exact absurd rfl hfe
            · rfl
          cases up <;> simp [hrc, hfe']
  · intro r stderr msg
    exact ⟨rfl, rfl⟩
  · intro raw_trials up stderr hempty
    subst hempty
    rfl

theorem run_status_lifecycle_witness :
    (run_pipeline_process initial_run_record (SubprocOutcome.exited 0 "") true
        (UploadOutcome.raised "disk full")).1.status = RunStatus.completed
    ∧ (run_pipeline_process initial_run_record
        (SubprocOutcome.exited (pipeline_main_exit []).1 "")
        (pipeline_main_exit []).2 (UploadOutcome.ok [])).1.status = RunStatus.error :=
  ⟨(run_status_lifecycle.2.2.2.1 initial_run_record "" "disk full").1,
   run_status_lifecycle.2.2.2.2 [] (UploadOutcome.ok []) "" rfl⟩

theorem antibody_rule_contains_iff_witness :
    infer_modality_from_name "SomeGenericMab" = "monoclonal antibody"
    ∧ ("SomeGenericMab" ≠ ""
        ∧ (antibody_suffixes.any fun sfx => str_contains (to_lower "SomeGenericMab") sfx)
          = true) :=
  ⟨antibody_rule_contains_iff.2,
   (antibody_rule_contains_iff.1 "SomeGenericMab").mp antibody_rule_contains_iff.2⟩
